import Mathlib

/-!
Shallow embedding of the `GeminiLiveService` class
(src/services/geminiService.ts) of the Kujohi/cursor_hack repository.

The class is single-threaded and event-driven: microphone frames arrive at
`processor.onaudioprocess`, inbound server messages at `handleMessage`, and
lifecycle events at `handleOpen` / the `onclose` callback / `stop`.  We embed
each handler as a pure function from its inputs and the mutable fields of the
class to the updated fields plus a record of the externally visible effects it
performs (status-callback invocations, resource releases, outbound sends,
scheduled playback starts, log lines).

External collaborators are parameters:
  * `decode : String → Option ℚ` stands for
    `base64ToUint8Array` followed by `decodeAudioData`, returning the duration
    (`buffer.duration`, in seconds) of the decoded buffer, or `none` when
    decoding throws;
  * `clock : ℕ → ℕ` stands for `Date.now()`; the j-th read during one
    message yields `clock j`;
  * `b64 : List ℤ → String` stands for `arrayBufferToBase64`;
  * `cur : ℚ` stands for `outputAudioContext.currentTime` read while the
    handler runs.

Times and sample values are rationals (the source uses IEEE doubles; the
claims under study are order/equality properties that do not depend on
rounding), machine integers are unbounded integers.
-/

namespace GeminiLive

/-- Mutable fields of `GeminiLiveService` that the handlers read or write.
Resource handles (`processor`, `source`, `stream`, `inputAudioContext`,
`outputAudioContext`) are tracked as presence booleans (`true` = non-null);
`currentSession` carries an identifier of the transport session it points to,
`none` when null.  `nextStartTime` starts at `0` (field initializer). -/
structure ServiceState where
  processor : Bool
  source : Bool
  stream : Bool
  inputAudioContext : Bool
  outputAudioContext : Bool
  nextStartTime : ℚ
  currentSession : Option ℕ
  deriving Repr, DecidableEq

/-- The freshly constructed service: every handle null, `nextStartTime = 0`. -/
def initialState : ServiceState :=
  { processor := false, source := false, stream := false,
    inputAudioContext := false, outputAudioContext := false,
    nextStartTime := 0, currentSession := none }

/-- Externally visible actions of the lifecycle methods, in program order. -/
inductive Effect where
  | status (s : String)
  | resumeInputCtx
  | resumeOutputCtx
  | getUserMedia
  | openSession (id : ℕ)
  | disconnectProcessor
  | disconnectSource
  | stopTracks
  | closeInputCtx
  | closeOutputCtx
  deriving Repr, DecidableEq

/-- One entry of `message.toolCall.functionCalls`: `{ id, name, args }`.
Arguments are kept opaque (the mediator only forwards them). -/
structure FunctionCall where
  id : String
  name : String
  args : String
  deriving Repr, DecidableEq

/-- The `result` object of a tool response:
`{ status: 'success', ticketId: Date.now().toString() }`. -/
structure FunctionResult where
  status : String
  ticketId : String
  deriving Repr, DecidableEq

/-- The `response` field of a tool response: `{ result: ... }`. -/
structure ToolResponseBody where
  result : FunctionResult
  deriving Repr, DecidableEq

/-- One element pushed onto `responses` in `handleMessage`:
`{ id: fc.id, name: fc.name, response: { result: ... } }`. -/
structure ToolResponse where
  id : String
  name : String
  response : ToolResponseBody
  deriving Repr, DecidableEq

/-- An inbound `LiveServerMessage`, reduced to the two parts `handleMessage`
inspects: `serverContent?.modelTurn?.parts?.[0]?.inlineData?.data` (a base64
string, `none` when any link of the optional chain is absent) and
`toolCall.functionCalls` (`none` when `message.toolCall` is absent). -/
structure LiveServerMessage where
  audioData : Option String
  toolCall : Option (List FunctionCall)
  deriving Repr, DecidableEq

/-- An outbound `sendRealtimeInput` payload: `{ media: { mimeType, data } }`. -/
structure RealtimeInput where
  mimeType : String
  data : String
  deriving Repr, DecidableEq

/-- Modelled from the spec: `float32ToInt16PCM` lives in
`src/services/audioUtils.ts`, which is not among the provided sources.  Per
spec §4.1 it clamps each sample to `[-1, 1]` and scales it to the signed
16-bit range, preserving length. -/
def float32ToInt16PCM (samples : List ℚ) : List ℤ :=
  samples.map fun x => Int.floor (max (-1) (min 1 x) * 32767)

/-- Mean of the squared samples, `sum / inputData.length` as computed by the
loop in `processor.onaudioprocess`. -/
def meanSquare (inputData : List ℚ) : ℚ :=
  (inputData.map fun x => x * x).sum / inputData.length

/-- The value passed to `onAudioLevel`: `Math.sqrt(sum / inputData.length)`. -/
noncomputable def frameRMS (inputData : List ℚ) : ℝ :=
  Real.sqrt (meanSquare inputData)

/-- Effects of one `processor.onaudioprocess` invocation: the level reported
to `onAudioLevel`, and the `sendRealtimeInput` payload if one was sent. -/
structure FrameEffects where
  level : ℝ
  sent : Option RealtimeInput

/-- The `processor.onaudioprocess` handler installed by `handleOpen`: computes
the RMS level, reports it, encodes the frame, and sends it tagged
`audio/pcm;rate=16000` — but only when `this.currentSession` is non-null;
otherwise the frame is dropped with no send. -/
noncomputable def onaudioprocess (b64 : List ℤ → String) (currentSession : Option ℕ)
    (inputData : List ℚ) : FrameEffects :=
  { level := frameRMS inputData
    sent :=
      match currentSession with
      | some _ =>
          some { mimeType := "audio/pcm;rate=16000"
                 data := b64 (float32ToInt16PCM inputData) }
      | none => none }

/-- The audio branch of `handleMessage` for one present chunk, starting from
cursor `next` with `outputAudioContext.currentTime = cur` and decode outcome
`dec` (duration of the decoded buffer, `none` when `decodeAudioData` throws):
first `nextStartTime = max(nextStartTime, currentTime)`; on success the buffer
is started at that time and the cursor advances by its duration; on failure
the error is caught and logged.  Returns (new cursor, start time passed to
`source.start` if any, log lines). -/
def handleAudioChunk (dec : Option ℚ) (cur next : ℚ) : ℚ × Option ℚ × List String :=
  let t := max next cur
  match dec with
  | some d => (t + d, some t, [])
  | none => (t, none, ["Error decoding audio"])

/-- The loop body of the tool branch of `handleMessage`: walk
`message.toolCall.functionCalls` in order; for each call named
`reportEmergency`, invoke `onReportSubmitted(fc.args)` and push a response
whose `ticketId` is `Date.now().toString()`; ignore every other call.  `j`
counts the `Date.now()` reads already made, so the j-th read returns
`clock j`.  Returns (responses pushed, arguments passed to
`onReportSubmitted`), each in program order. -/
def handleToolCalls (clock : ℕ → ℕ) (j : ℕ) :
    List FunctionCall → List ToolResponse × List String
  | [] => ([], [])
  | fc :: rest =>
    if fc.name = "reportEmergency" then
      let r := handleToolCalls clock (j + 1) rest
      ({ id := fc.id, name := fc.name
         response := { result := { status := "success", ticketId := Nat.repr (clock j) } } } :: r.1,
       fc.args :: r.2)
    else
      handleToolCalls clock j rest

/-- Externally visible effects of one `handleMessage` invocation. -/
structure MsgEffects where
  scheduled : Option ℚ
  logs : List String
  reports : List String
  sentToolResponse : Option (List ToolResponse)
  deriving Repr, DecidableEq

/-- The `handleMessage` callback.  The audio branch runs when the optional
chain yields a non-empty base64 string (an empty string is falsy in
JavaScript) and `this.outputAudioContext` is non-null; it updates
`nextStartTime` via `handleAudioChunk`.  The tool branch runs when
`message.toolCall` is present; the batched `sendToolResponse` happens only
when at least one response was pushed and `this.currentSession` is
non-null. -/
def handleMessage (decode : String → Option ℚ) (clock : ℕ → ℕ) (cur : ℚ)
    (msg : LiveServerMessage) (s : ServiceState) : ServiceState × MsgEffects :=
  let audio :=
    match msg.audioData with
    | some chunk =>
      if chunk ≠ "" ∧ s.outputAudioContext = true then
        let r := handleAudioChunk (decode chunk) cur s.nextStartTime
        ({ s with nextStartTime := r.1 }, r.2.1, r.2.2)
      else (s, none, [])
    | none => (s, none, [])
  let s1 := audio.1
  let tool :=
    match msg.toolCall with
    | some calls =>
      let r := handleToolCalls clock 0 calls
      (r.2, if r.1 ≠ [] ∧ s1.currentSession.isSome = true then some r.1 else none)
    | none => ([], none)
  (s1, { scheduled := audio.2.1, logs := audio.2.2
         reports := tool.1, sentToolResponse := tool.2 })

/-- The `stop` method: each release step is guarded on its handle being
non-null, every handle is then set to null, and
`onStatusChange?.('Disconnected')` fires unconditionally at the end.
`nextStartTime` is not reset. -/
def stop (s : ServiceState) : ServiceState × List Effect :=
  ({ s with processor := false, source := false, stream := false,
            inputAudioContext := false, outputAudioContext := false,
            currentSession := none },
   (if s.processor then [Effect.disconnectProcessor] else []) ++
   (if s.source then [Effect.disconnectSource] else []) ++
   (if s.stream then [Effect.stopTracks] else []) ++
   (if s.inputAudioContext then [Effect.closeInputCtx] else []) ++
   (if s.outputAudioContext then [Effect.closeOutputCtx] else []) ++
   [Effect.status "Disconnected"])

/-- The `onclose` transport callback: `onStatusChange?.('Disconnected')`
followed by `this.stop()`. -/
def onclose (s : ServiceState) : ServiceState × List Effect :=
  ((stop s).1, Effect.status "Disconnected" :: (stop s).2)

/-- The `connect` method, run to completion with the transport handing back a
fresh session identified by `freshId`: emits its three status updates,
acquires both audio contexts and the microphone stream, opens the session,
and stores it in `currentSession`.  No field is checked first: whatever
`currentSession` held before is overwritten, `nextStartTime` is untouched,
and nothing is closed. -/
def connect (freshId : ℕ) (s : ServiceState) : ServiceState × List Effect :=
  ({ s with inputAudioContext := true, outputAudioContext := true,
            stream := true, currentSession := some freshId },
   [Effect.status "Initializing Audio...", Effect.resumeInputCtx,
    Effect.resumeOutputCtx, Effect.status "Requesting Mic...",
    Effect.getUserMedia, Effect.status "Connecting to HQ...",
    Effect.openSession freshId])

/-- The `onopen` transport callback (`handleOpen`): reports status `Live`,
and when the input context and stream are present wires the capture graph
(`source` and `processor` become non-null). -/
def handleOpen (s : ServiceState) : ServiceState × List Effect :=
  if s.inputAudioContext = true ∧ s.stream = true then
    ({ s with source := true, processor := true }, [Effect.status "Live"])
  else
    (s, [Effect.status "Live"])

/-- Start times produced by a run of successfully decoded chunks: chunk `i`
is handled with `currentTime` reading `cds[i].1` and decoded duration
`cds[i].2`, each via `handleAudioChunk`, threading the cursor. -/
def starts (next : ℚ) : List (ℚ × ℚ) → List ℚ
  | [] => []
  | (c, d) :: rest =>
    let r := handleAudioChunk (some d) c next
    (r.2.1).getD 0 :: starts r.1 rest

/-- The cursor after the same run of successfully decoded chunks. -/
def finalCursor (next : ℚ) : List (ℚ × ℚ) → ℚ
  | [] => next
  | (c, d) :: rest => finalCursor ((handleAudioChunk (some d) c next).1) rest

/-- A state corresponding to a completed `connect` followed by the transport
`onopen` callback: every resource handle present, session 1 live. -/
def liveState : ServiceState := (handleOpen (connect 1 initialState).1).1

lemma handleAudioChunk_some (d cur next : ℚ) :
    handleAudioChunk (some d) cur next = (max next cur + d, some (max next cur), []) := rfl

lemma handleAudioChunk_none (cur next : ℚ) :
    handleAudioChunk none cur next = (max next cur, none, ["Error decoding audio"]) := rfl

/-- C4: if the output clock has advanced past the cursor when a decodable
chunk is handled, that chunk is started exactly at the current clock time;
and no chunk is ever scheduled before the current clock time. -/
theorem stall_recovery (next cur d : ℚ) (h : next < cur) :
    (handleAudioChunk (some d) cur next).2.1 = some cur ∧
    ∀ next' dec s, (handleAudioChunk dec cur next').2.1 = some s → cur ≤ s := by
  constructor
  · simp [handleAudioChunk_some, max_eq_right (le_of_lt h)]
  · intro next' dec s hs
    cases dec with
    | some d' =>
      rw [handleAudioChunk_some] at hs
      simp only [Option.some.injEq] at hs
      rw [← hs]
      exact le_max_right next' cur
    | none => simp [handleAudioChunk_none] at hs

/-- Witness for C4 at `next = 0`, `cur = 1`, `d = 2`. -/
theorem stall_recovery_witness :
    (0 : ℚ) < 1 ∧
    ((handleAudioChunk (some 2) 1 0).2.1 = some 1 ∧
      ∀ next' dec s, (handleAudioChunk dec 1 next').2.1 = some s → (1 : ℚ) ≤ s) :=
  ⟨by norm_num, stall_recovery 0 1 2 (by norm_num)⟩

/-- C6: a captured frame processed while `currentSession` is null is silently
dropped — nothing is sent — while the handler still completes and reports the
frame's RMS level. -/
theorem frame_dropped_without_session (b64 : List ℤ → String) (sess : Option ℕ)
    (h : sess = none) (inputData : List ℚ) :
    (onaudioprocess b64 sess inputData).sent = none ∧
    (onaudioprocess b64 sess inputData).level = frameRMS inputData := by
  subst h
  exact ⟨rfl, rfl⟩

/-- Witness for C6 on a concrete one-sample frame. -/
theorem frame_dropped_without_session_witness :
    (none : Option ℕ) = none ∧
    ((onaudioprocess (fun _ => "") none [1]).sent = none ∧
      (onaudioprocess (fun _ => "") none [1]).level = frameRMS [1]) :=
  ⟨rfl, frame_dropped_without_session (fun _ => "") none rfl [1]⟩

/-- C10: when decoding an inbound chunk fails, the cursor still moves to
`max(nextStartTime, currentTime)` — the update made before the decode attempt
— but is never advanced by the failed chunk's duration, nothing is scheduled,
and every other field of the service state is untouched. -/
theorem failed_decode_state_effect (decode : String → Option ℚ) (clock : ℕ → ℕ)
    (cur : ℚ) (chunk : String) (s : ServiceState)
    (hchunk : chunk ≠ "") (hctx : s.outputAudioContext = true)
    (hdec : decode chunk = none) :
    (handleMessage decode clock cur ⟨some chunk, none⟩ s).1.nextStartTime =
        max s.nextStartTime cur ∧
    (handleMessage decode clock cur ⟨some chunk, none⟩ s).2.scheduled = none ∧
    (handleMessage decode clock cur ⟨some chunk, none⟩ s).1.processor = s.processor ∧
    (handleMessage decode clock cur ⟨some chunk, none⟩ s).1.source = s.source ∧
    (handleMessage decode clock cur ⟨some chunk, none⟩ s).1.stream = s.stream ∧
    (handleMessage decode clock cur ⟨some chunk, none⟩ s).1.inputAudioContext =
        s.inputAudioContext ∧
    (handleMessage decode clock cur ⟨some chunk, none⟩ s).1.outputAudioContext =
        s.outputAudioContext ∧
    (handleMessage decode clock cur ⟨some chunk, none⟩ s).1.currentSession =
        s.currentSession := by
  simp [handleMessage, hchunk, hctx, hdec, handleAudioChunk_none]

/-- Witness for C10 with a concrete failing decoder and live state. -/
theorem failed_decode_state_effect_witness :
    ("bad" ≠ "" ∧ liveState.outputAudioContext = true ∧
      (fun c => if c = "bad" then none else some (1 : ℚ)) "bad" = none) ∧
    ((handleMessage (fun c => if c = "bad" then none else some (1 : ℚ))
        (fun _ => 0) 5 ⟨some "bad", none⟩ liveState).1.nextStartTime =
          max liveState.nextStartTime 5 ∧
      (handleMessage (fun c => if c = "bad" then none else some (1 : ℚ))
        (fun _ => 0) 5 ⟨some "bad", none⟩ liveState).2.scheduled = none ∧
      (handleMessage (fun c => if c = "bad" then none else some (1 : ℚ))
        (fun _ => 0) 5 ⟨some "bad", none⟩ liveState).1.processor = liveState.processor ∧
      (handleMessage (fun c => if c = "bad" then none else some (1 : ℚ))
        (fun _ => 0) 5 ⟨some "bad", none⟩ liveState).1.source = liveState.source ∧
      (handleMessage (fun c => if c = "bad" then none else some (1 : ℚ))
        (fun _ => 0) 5 ⟨some "bad", none⟩ liveState).1.stream = liveState.stream ∧
      (handleMessage (fun c => if c = "bad" then none else some (1 : ℚ))
        (fun _ => 0) 5 ⟨some "bad", none⟩ liveState).1.inputAudioContext =
          liveState.inputAudioContext ∧
      (handleMessage (fun c => if c = "bad" then none else some (1 : ℚ))
        (fun _ => 0) 5 ⟨some "bad", none⟩ liveState).1.outputAudioContext =
          liveState.outputAudioContext ∧
      (handleMessage (fun c => if c = "bad" then none else some (1 : ℚ))
        (fun _ => 0) 5 ⟨some "bad", none⟩ liveState).1.currentSession =
          liveState.currentSession) :=
  ⟨⟨by decide, by decide, by decide⟩,
    failed_decode_state_effect _ _ 5 "bad" liveState (by decide) (by decide) (by decide)⟩

/-- C7: a decode failure is absorbed inside `handleMessage`: the offending
chunk is not scheduled, the diagnostic `Error decoding audio` is logged, the
session handle survives, and a following decodable chunk is scheduled
normally (at `max` of the updated cursor and the then-current clock). -/
theorem decode_failure_recovered (decode : String → Option ℚ) (clock : ℕ → ℕ)
    (cur1 cur2 : ℚ) (chunk1 chunk2 : String) (d : ℚ) (s : ServiceState)
    (hc1 : chunk1 ≠ "") (hc2 : chunk2 ≠ "") (hctx : s.outputAudioContext = true)
    (hdec1 : decode chunk1 = none) (hdec2 : decode chunk2 = some d) :
    (handleMessage decode clock cur1 ⟨some chunk1, none⟩ s).2.scheduled = none ∧
    (handleMessage decode clock cur1 ⟨some chunk1, none⟩ s).2.logs =
        ["Error decoding audio"] ∧
    (handleMessage decode clock cur1 ⟨some chunk1, none⟩ s).1.currentSession =
        s.currentSession ∧
    (handleMessage decode clock cur2 ⟨some chunk2, none⟩
        (handleMessage decode clock cur1 ⟨some chunk1, none⟩ s).1).2.scheduled =
      some (max (max s.nextStartTime cur1) cur2) := by
  refine ⟨?_, ?_, ?_, ?_⟩ <;>
    simp [handleMessage, hc1, hc2, hctx, hdec1, hdec2,
      handleAudioChunk_none, handleAudioChunk_some]

/-- Witness for C7 with a decoder failing on `bad` and succeeding on `ok`. -/
theorem decode_failure_recovered_witness :
    ("bad" ≠ "" ∧ "ok" ≠ "" ∧ liveState.outputAudioContext = true ∧
      (fun c => if c = "bad" then none else some (1 : ℚ)) "bad" = none ∧
      (fun c => if c = "bad" then none else some (1 : ℚ)) "ok" = some 1) ∧
    ((handleMessage (fun c => if c = "bad" then none else some (1 : ℚ))
        (fun _ => 0) 5 ⟨some "bad", none⟩ liveState).2.scheduled = none ∧
      (handleMessage (fun c => if c = "bad" then none else some (1 : ℚ))
        (fun _ => 0) 5 ⟨some "bad", none⟩ liveState).2.logs =
          ["Error decoding audio"] ∧
      (handleMessage (fun c => if c = "bad" then none else some (1 : ℚ))
        (fun _ => 0) 5 ⟨some "bad", none⟩ liveState).1.currentSession =
          liveState.currentSession ∧
      (handleMessage (fun c => if c = "bad" then none else some (1 : ℚ))
        (fun _ => 0) 6 ⟨some "ok", none⟩
        (handleMessage (fun c => if c = "bad" then none else some (1 : ℚ))
          (fun _ => 0) 5 ⟨some "bad", none⟩ liveState).1).2.scheduled =
        some (max (max liveState.nextStartTime 5) 6)) :=
  ⟨⟨by decide, by decide, by decide, by decide, by decide⟩,
    decode_failure_recovered _ _ 5 6 "bad" "ok" 1 liveState
      (by decide) (by decide) (by decide) (by decide) (by decide)⟩

lemma stop_count_status (s : ServiceState) :
    ((stop s).2).count (Effect.status "Disconnected") = 1 := by
  obtain ⟨p, src, st, ic, oc, n, cs⟩ := s
  simp only [stop]
  split_ifs <;> decide

/-- C2 counterexample: from the `Live` state, two successive `stop()` calls
emit the terminal status `Disconnected` twice, not once — each call fires
`onStatusChange?.('Disconnected')` unconditionally. -/
theorem stop_twice_two_notifications :
    ((stop liveState).2 ++ (stop (stop liveState).1).2).count
        (Effect.status "Disconnected") = 2 := by decide

/-- C2 (amended): each `stop()` call fires the terminal status exactly once,
unconditionally; the second of two successive calls performs no release work
and raises no error (its only effect is the repeated notification); and a
remote close runs `onStatusChange?.('Disconnected')` and then `stop()`, so
the close path emits the terminal status twice. -/
theorem stop_notifies_once_per_call (s : ServiceState) :
    ((stop s).2).count (Effect.status "Disconnected") = 1 ∧
    (stop (stop s).1).2 = [Effect.status "Disconnected"] ∧
    ((onclose s).2).count (Effect.status "Disconnected") = 2 := by
  refine ⟨stop_count_status s, ?_, ?_⟩
  · simp [stop]
  · simp only [onclose, List.count_cons]
    rw [stop_count_status s]
    decide

/-- C5 counterexample: with session 1 live, a second `connect()` is neither
rejected nor a no-op: it opens a second transport session and overwrites the
stored handle with it. -/
theorem second_connect_opens_second_session :
    liveState.currentSession = some 1 ∧
    (connect 2 liveState).1.currentSession = some 2 ∧
    Effect.openSession 2 ∈ (connect 2 liveState).2 ∧
    (connect 2 liveState).2 ≠ [] := by decide

/-- C5 (amended): `connect()` performs no session-state guard: invoked in any
state — including while a session is live — it runs its full acquisition
sequence, opens a fresh session, and overwrites `currentSession` with it; its
effect sequence does not depend on the prior state and closes nothing. -/
theorem connect_unguarded (j : ℕ) (s : ServiceState) :
    (connect j s).1.currentSession = some j ∧
    Effect.openSession j ∈ (connect j s).2 ∧
    (connect j s).2 = (connect j initialState).2 := by
  refine ⟨rfl, ?_, rfl⟩
  simp [connect]

lemma toDigitsCore_len_mono (b : ℕ) : ∀ (f n : ℕ) (acc : List Char),
    acc.length ≤ (Nat.toDigitsCore b f n acc).length := by
  intro f
  induction f with
  | zero => intro n acc; simp [Nat.toDigitsCore]
  | succ f ih =>
    intro n acc
    simp only [Nat.toDigitsCore]
    split
    · simp
    · exact le_trans (by simp) (ih (n / b) (Nat.digitChar (n % b) :: acc))

lemma toDigits_ne_nil (b n : ℕ) : Nat.toDigits b n ≠ [] := by
  have h : 1 ≤ (Nat.toDigitsCore b (n + 1) n []).length := by
    simp only [Nat.toDigitsCore]
    split
    · simp
    · exact le_trans (by simp) (toDigitsCore_len_mono b n (n / b) [Nat.digitChar (n % b)])
  intro hcon
  rw [Nat.toDigits] at hcon
  rw [hcon] at h
  simp at h

lemma repr_ne_empty (n : ℕ) : Nat.repr n ≠ "" := by
  rw [Nat.repr]
  intro hcon
  have hdata := congrArg String.data hcon
  simp [List.asString] at hdata
  exact toDigits_ne_nil 10 n hdata

lemma handleToolCalls_fst_map (clock : ℕ → ℕ) (calls : List FunctionCall) : ∀ j,
    (handleToolCalls clock j calls).1.map (fun r => (r.id, r.name)) =
      (calls.filter fun fc => fc.name == "reportEmergency").map fun fc => (fc.id, fc.name) := by
  induction calls with
  | nil => intro j; rfl
  | cons fc rest ih =>
    intro j
    by_cases h : fc.name = "reportEmergency" <;>
      simp [handleToolCalls, h, List.filter_cons, ih]

lemma handleToolCalls_length (clock : ℕ → ℕ) (calls : List FunctionCall) (j : ℕ) :
    (handleToolCalls clock j calls).1.length =
      (calls.filter fun fc => fc.name == "reportEmergency").length := by
  have := congrArg List.length (handleToolCalls_fst_map clock calls j)
  simpa using this

lemma handleToolCalls_snd (clock : ℕ → ℕ) (calls : List FunctionCall) : ∀ j,
    (handleToolCalls clock j calls).2 =
      (calls.filter fun fc => fc.name == "reportEmergency").map FunctionCall.args := by
  induction calls with
  | nil => intro j; rfl
  | cons fc rest ih =>
    intro j
    by_cases h : fc.name = "reportEmergency" <;>
      simp [handleToolCalls, h, List.filter_cons, ih]

lemma handleToolCalls_tickets (clock : ℕ → ℕ) (calls : List FunctionCall) : ∀ j,
    ((handleToolCalls clock j calls).1.map fun r => r.response.result.ticketId) =
      ((List.range (calls.filter fun fc => fc.name == "reportEmergency").length).map
        fun i => Nat.repr (clock (j + i))) := by
  induction calls with
  | nil => intro j; rfl
  | cons fc rest ih =>
    intro j
    by_cases h : fc.name = "reportEmergency"
    · simp only [handleToolCalls, h, if_pos, List.filter_cons, beq_self_eq_true, if_true,
        List.map_cons, List.length_cons, List.range_succ_eq_map, List.map_map]
      rw [ih (j + 1)]
      simp only [Nat.add_zero]
      congr 1
      apply List.map_congr_left
      intro i _
      simp only [Function.comp_apply]
      have hj : j + 1 + i = j + (i + 1) := by omega
      rw [hj]
    · simp only [handleToolCalls, h, if_false, List.filter_cons]
      have hb : (fc.name == "reportEmergency") = false := by
        simp [h]
      rw [hb]
      simpa using ih j

/-- C1: for an inbound message whose `toolCall` carries `calls`, the mediator
produces exactly one response per call named `reportEmergency` (none for any
other name), with ids and names in the calls' relative order; the
`onReportSubmitted` callback receives exactly the recognized calls' argument
objects in that order; and the single batched `sendToolResponse` containing
all the responses happens exactly when at least one response was produced and
a session handle is present (so in particular only if at least one call was
recognized). -/
theorem tool_call_completeness (decode : String → Option ℚ) (clock : ℕ → ℕ)
    (cur : ℚ) (calls : List FunctionCall) (s : ServiceState) :
    (handleToolCalls clock 0 calls).1.length =
        (calls.filter fun fc => fc.name == "reportEmergency").length ∧
    ((handleToolCalls clock 0 calls).1.map fun r => (r.id, r.name)) =
        ((calls.filter fun fc => fc.name == "reportEmergency").map
          fun fc => (fc.id, fc.name)) ∧
    (handleMessage decode clock cur ⟨none, some calls⟩ s).2.reports =
        ((calls.filter fun fc => fc.name == "reportEmergency").map
          FunctionCall.args) ∧
    (handleMessage decode clock cur ⟨none, some calls⟩ s).2.sentToolResponse =
        (if 1 ≤ (calls.filter fun fc => fc.name == "reportEmergency").length ∧
            s.currentSession.isSome = true
         then some (handleToolCalls clock 0 calls).1 else none) := by
  refine ⟨handleToolCalls_length clock calls 0, handleToolCalls_fst_map clock calls 0,
    ?_, ?_⟩
  · simp [handleMessage, handleToolCalls_snd clock calls 0]
  · have key : ((handleToolCalls clock 0 calls).1 ≠ [] ∧ s.currentSession.isSome = true) ↔
        (1 ≤ (calls.filter fun fc => fc.name == "reportEmergency").length ∧
          s.currentSession.isSome = true) := by
      rw [← handleToolCalls_length clock calls 0]
      constructor
      · rintro ⟨h1, h2⟩
        exact ⟨List.length_pos.mpr h1, h2⟩
      · rintro ⟨h1, h2⟩
        exact ⟨List.length_pos.mp h1, h2⟩
    simp [handleMessage, key]

/-- Recognized demo call list: two `reportEmergency` calls around one
unrecognized call. -/
def demoCalls : List FunctionCall :=
  [{ id := "1", name := "reportEmergency", args := "argsA" },
   { id := "2", name := "other", args := "argsB" },
   { id := "3", name := "reportEmergency", args := "argsC" }]

/-- Witness for C1 on `demoCalls` with a session present. -/
theorem tool_call_completeness_witness :
    (handleToolCalls (fun _ => 173) 0 demoCalls).1.length =
        (demoCalls.filter fun fc => fc.name == "reportEmergency").length ∧
    ((handleToolCalls (fun _ => 173) 0 demoCalls).1.map fun r => (r.id, r.name)) =
        ((demoCalls.filter fun fc => fc.name == "reportEmergency").map
          fun fc => (fc.id, fc.name)) ∧
    (handleMessage (fun _ => none) (fun _ => 173) 0 ⟨none, some demoCalls⟩
        liveState).2.reports =
        ((demoCalls.filter fun fc => fc.name == "reportEmergency").map
          FunctionCall.args) ∧
    (handleMessage (fun _ => none) (fun _ => 173) 0 ⟨none, some demoCalls⟩
        liveState).2.sentToolResponse =
        (if 1 ≤ (demoCalls.filter fun fc => fc.name == "reportEmergency").length ∧
            liveState.currentSession.isSome = true
         then some (handleToolCalls (fun _ => 173) 0 demoCalls).1 else none) :=
  tool_call_completeness (fun _ => none) (fun _ => 173) 0 demoCalls liveState

/-- C9: the ticket identifiers of the responses to one inbound message are
exactly the decimal strings of the successive `Date.now()` readings (the j-th
recognized call gets reading `clock j`); every such identifier is a non-empty
string; and when all readings coincide — the calls are handled at the same
clock reading — all the generated identifiers are equal, so uniqueness per
call is not guaranteed. -/
theorem ticket_id_generation (clock : ℕ → ℕ) (calls : List FunctionCall) :
    ((handleToolCalls clock 0 calls).1.map fun r => r.response.result.ticketId) =
      ((List.range (calls.filter fun fc => fc.name == "reportEmergency").length).map
        fun i => Nat.repr (clock i)) ∧
    (∀ r ∈ (handleToolCalls clock 0 calls).1, r.response.result.ticketId ≠ "") ∧
    ((∀ i, clock i = clock 0) →
      ((handleToolCalls clock 0 calls).1.map fun r => r.response.result.ticketId) =
        List.replicate (calls.filter fun fc => fc.name == "reportEmergency").length
          (Nat.repr (clock 0))) := by
  have hmap := handleToolCalls_tickets clock calls 0
  simp only [Nat.zero_add] at hmap
  refine ⟨hmap, ?_, ?_⟩
  · intro r hr
    have hmem : r.response.result.ticketId ∈
        ((handleToolCalls clock 0 calls).1.map fun r => r.response.result.ticketId) :=
      List.mem_map_of_mem _ hr
    rw [hmap] at hmem
    obtain ⟨i, _, hi⟩ := List.mem_map.mp hmem
    rw [← hi]
    exact repr_ne_empty (clock i)
  · intro hconst
    rw [hmap]
    rw [List.map_congr_left fun i _ => by rw [hconst i]]
    rw [List.map_const', List.length_range]

/-- Witness for C9: a constant clock over `demoCalls` yields two equal,
non-empty ticket identifiers. -/
theorem ticket_id_generation_witness :
    ((handleToolCalls (fun _ => 173) 0 demoCalls).1.map
        fun r => r.response.result.ticketId) =
      List.replicate (demoCalls.filter fun fc => fc.name == "reportEmergency").length
        (Nat.repr 173) :=
  (ticket_id_generation (fun _ => 173) demoCalls).2.2 fun _ => rfl

lemma starts_cons (next c d : ℚ) (rest : List (ℚ × ℚ)) :
    starts next ((c, d) :: rest) = max next c :: starts (max next c + d) rest := rfl

lemma starts_ge (cds : List (ℚ × ℚ)) : ∀ next, (∀ p ∈ cds, 0 ≤ p.2) →
    ∀ x ∈ starts next cds, next ≤ x := by
  induction cds with
  | nil => intro next _ x hx; simp [starts] at hx
  | cons p rest ih =>
    obtain ⟨c, d⟩ := p
    intro next hd x hx
    rw [starts_cons] at hx
    rcases List.mem_cons.mp hx with rfl | hx
    · exact le_max_left _ _
    · have h0 : 0 ≤ d := hd (c, d) (List.mem_cons_self _ _)
      have htail := ih (max next c + d) (fun q hq => hd q (List.mem_cons_of_mem _ hq)) x hx
      calc next ≤ max next c := le_max_left _ _
        _ ≤ max next c + d := le_add_of_nonneg_right h0
        _ ≤ x := htail

lemma starts_chain (cds : List (ℚ × ℚ)) : ∀ next, (∀ p ∈ cds, 0 ≤ p.2) →
    List.Chain' (· ≤ ·) (starts next cds) := by
  induction cds with
  | nil => intro next _; simp [starts]
  | cons p rest ih =>
    obtain ⟨c, d⟩ := p
    intro next hd
    rw [starts_cons]
    have hrest : ∀ q ∈ rest, 0 ≤ q.2 := fun q hq => hd q (List.mem_cons_of_mem _ hq)
    have h0 : 0 ≤ d := hd (c, d) (List.mem_cons_self _ _)
    apply List.chain'_cons'.mpr
    refine ⟨?_, ih (max next c + d) hrest⟩
    intro y hy
    have hmem : y ∈ starts (max next c + d) rest := List.mem_of_mem_head? hy
    have := starts_ge rest (max next c + d) hrest y hmem
    calc max next c ≤ max next c + d := le_add_of_nonneg_right h0
      _ ≤ y := this

lemma finalCursor_ge (cds : List (ℚ × ℚ)) : ∀ next, (∀ p ∈ cds, 0 ≤ p.2) →
    next ≤ finalCursor next cds := by
  induction cds with
  | nil => intro next _; exact le_refl next
  | cons p rest ih =>
    obtain ⟨c, d⟩ := p
    intro next hd
    have h0 : 0 ≤ d := hd (c, d) (List.mem_cons_self _ _)
    have hrest : ∀ q ∈ rest, 0 ≤ q.2 := fun q hq => hd q (List.mem_cons_of_mem _ hq)
    calc next ≤ max next c + d :=
          le_trans (le_max_left _ _) (le_add_of_nonneg_right h0)
      _ ≤ finalCursor (max next c + d) rest := ih (max next c + d) hrest
      _ = finalCursor next ((c, d) :: rest) := rfl

lemma starts_back_to_back (cds : List (ℚ × ℚ)) : ∀ (next : ℚ) (i : ℕ),
    i + 1 < cds.length →
    (cds.getD (i + 1) (0, 0)).1 ≤ (starts next cds).getD i 0 + (cds.getD i (0, 0)).2 →
    (starts next cds).getD (i + 1) 0 =
      (starts next cds).getD i 0 + (cds.getD i (0, 0)).2 := by
  induction cds with
  | nil => intro next i h; simp at h
  | cons p rest ih =>
    obtain ⟨c, d⟩ := p
    intro next i hi hno
    cases i with
    | zero =>
      cases rest with
      | nil => simp at hi
      | cons q rest' =>
        obtain ⟨c2, d2⟩ := q
        simp only [starts_cons, List.getD_cons_zero, List.getD_cons_succ] at hno ⊢
        exact max_eq_left hno
    | succ i' =>
      simp only [starts_cons, List.getD_cons_succ, List.length_cons] at hi hno ⊢
      exact ih (max next c + d) i' (by omega) hno

/-- C3: over any run of successfully decoded chunks — chunk `i` handled with
clock reading `cds[i].1` and decoded duration `cds[i].2 ≥ 0` — the scheduled
start times are non-decreasing, the `nextStartTime` cursor never decreases,
and whenever the clock reading at chunk `i+1` has not passed the cursor
`start[i] + d[i]` (no stall), chunk `i+1` starts exactly at
`start[i] + d[i]`, back to back. -/
theorem playback_monotonicity (next : ℚ) (cds : List (ℚ × ℚ))
    (hd : ∀ p ∈ cds, 0 ≤ p.2) :
    List.Chain' (· ≤ ·) (starts next cds) ∧
    next ≤ finalCursor next cds ∧
    (∀ i : ℕ, i + 1 < cds.length →
      (cds.getD (i + 1) (0, 0)).1 ≤
          (starts next cds).getD i 0 + (cds.getD i (0, 0)).2 →
      (starts next cds).getD (i + 1) 0 =
        (starts next cds).getD i 0 + (cds.getD i (0, 0)).2) :=
  ⟨starts_chain cds next hd, finalCursor_ge cds next hd,
    fun i hi hno => starts_back_to_back cds next i hi hno⟩

/-- Witness for C3 on two concrete chunks. -/
theorem playback_monotonicity_witness :
    (∀ p ∈ [((0 : ℚ), (1 : ℚ)), (2, 3)], 0 ≤ p.2) ∧
    (List.Chain' (· ≤ ·) (starts 0 [((0 : ℚ), (1 : ℚ)), (2, 3)]) ∧
      (0 : ℚ) ≤ finalCursor 0 [((0 : ℚ), (1 : ℚ)), (2, 3)] ∧
      (∀ i : ℕ, i + 1 < ([((0 : ℚ), (1 : ℚ)), (2, 3)] : List (ℚ × ℚ)).length →
        (([((0 : ℚ), (1 : ℚ)), (2, 3)] : List (ℚ × ℚ)).getD (i + 1) (0, 0)).1 ≤
            (starts 0 [((0 : ℚ), (1 : ℚ)), (2, 3)]).getD i 0 +
              (([((0 : ℚ), (1 : ℚ)), (2, 3)] : List (ℚ × ℚ)).getD i (0, 0)).2 →
        (starts 0 [((0 : ℚ), (1 : ℚ)), (2, 3)]).getD (i + 1) 0 =
          (starts 0 [((0 : ℚ), (1 : ℚ)), (2, 3)]).getD i 0 +
            (([((0 : ℚ), (1 : ℚ)), (2, 3)] : List (ℚ × ℚ)).getD i (0, 0)).2)) :=
  ⟨by decide, playback_monotonicity 0 [((0 : ℚ), (1 : ℚ)), (2, 3)] (by decide)⟩

lemma sumSq_nonneg (xs : List ℚ) : 0 ≤ (xs.map fun x => x * x).sum := by
  apply List.sum_nonneg
  intro y hy
  obtain ⟨x, _, rfl⟩ := List.mem_map.mp hy
  exact mul_self_nonneg x

lemma sumSq_le_length (xs : List ℚ) (h : ∀ x ∈ xs, -1 ≤ x ∧ x ≤ 1) :
    (xs.map fun x => x * x).sum ≤ xs.length := by
  induction xs with
  | nil => simp
  | cons x rest ih =>
    have hx := h x (List.mem_cons_self _ _)
    have hxsq : x * x ≤ 1 := by nlinarith [hx.1, hx.2]
    have hrest := ih fun y hy => h y (List.mem_cons_of_mem _ hy)
    simp only [List.map_cons, List.sum_cons, List.length_cons]
    push_cast
    linarith

lemma meanSquare_nonneg (xs : List ℚ) : 0 ≤ meanSquare xs :=
  div_nonneg (sumSq_nonneg xs) (Nat.cast_nonneg _)

lemma meanSquare_le_one (xs : List ℚ) (h : ∀ x ∈ xs, -1 ≤ x ∧ x ≤ 1) :
    meanSquare xs ≤ 1 := by
  rcases xs with _ | ⟨x, rest⟩
  · simp [meanSquare]
  · rw [meanSquare, div_le_one]
    · exact sumSq_le_length _ h
    · have hpos : 0 < (x :: rest).length := Nat.succ_pos _
      exact_mod_cast hpos

lemma meanSquare_replicate_zero (n : ℕ) : meanSquare (List.replicate n 0) = 0 := by
  simp [meanSquare, List.map_replicate]

/-- C8: the level delivered by `onaudioprocess` is the RMS amplitude of the
frame, which for samples in `[-1, 1]` lies in `[0, 1]`; the all-zero
4096-sample frame yields level exactly `0`; and the frame produces exactly
one outbound message — present precisely when the session handle is, tagged
`audio/pcm;rate=16000` and carrying the encoded frame. -/
theorem frame_level_rms (b64 : List ℤ → String) (sess : Option ℕ)
    (inputData : List ℚ) (h : ∀ x ∈ inputData, -1 ≤ x ∧ x ≤ 1) :
    (onaudioprocess b64 sess inputData).level = frameRMS inputData ∧
    0 ≤ (onaudioprocess b64 sess inputData).level ∧
    (onaudioprocess b64 sess inputData).level ≤ 1 ∧
    (inputData = List.replicate 4096 0 →
      (onaudioprocess b64 sess inputData).level = 0) ∧
    (onaudioprocess b64 sess inputData).sent =
      sess.map fun _ =>
        { mimeType := "audio/pcm;rate=16000"
          data := b64 (float32ToInt16PCM inputData) } := by
  have hlevel : (onaudioprocess b64 sess inputData).level = frameRMS inputData := rfl
  refine ⟨hlevel, ?_, ?_, ?_, ?_⟩
  · rw [hlevel]
    exact Real.sqrt_nonneg _
  · rw [hlevel, frameRMS]
    apply Real.sqrt_le_one.mpr
    exact_mod_cast meanSquare_le_one inputData h
  · intro hzero
    rw [hlevel, hzero, frameRMS, meanSquare_replicate_zero]
    simp
  · cases sess <;> rfl

/-- Witness for C8 on the all-zero 4096-sample frame with a session
present. -/
theorem frame_level_rms_witness :
    (∀ x ∈ List.replicate 4096 (0 : ℚ), -1 ≤ x ∧ x ≤ 1) ∧
    (onaudioprocess (fun _ => "") (some 0) (List.replicate 4096 (0 : ℚ))).level = 0 ∧
    (onaudioprocess (fun _ => "") (some 0) (List.replicate 4096 (0 : ℚ))).sent =
      (some 0 : Option ℕ).map fun _ =>
        { mimeType := "audio/pcm;rate=16000"
          data := (fun _ => "") (float32ToInt16PCM (List.replicate 4096 (0 : ℚ))) } := by
  have h : ∀ x ∈ List.replicate 4096 (0 : ℚ), -1 ≤ x ∧ x ≤ 1 := by
    intro x hx
    rw [List.eq_of_mem_replicate hx]
    norm_num
  exact ⟨h, (frame_level_rms (fun _ => "") (some 0) _ h).2.2.2.1 rfl,
    (frame_level_rms (fun _ => "") (some 0) _ h).2.2.2.2⟩

end GeminiLive
